import Mathlib

/-!
Verification of the GameJournal social-graph subsystem.

The repository ships a React frontend (frontend/src); the Django backend that
implements the friend-request state machine, the relationship resolver and the
activity feed is not part of the checked-in sources, so those components are
modelled from the specification (each such definition is marked
"Modelled from the spec:").  Frontend logic (the axios 401 interceptor, the
feed pagination client, the people search, the response-shape declarations) is
translated directly from the TypeScript sources.
-/

namespace GameJournal

/-! ## Friend-request data model (spec section 3) -/

/-- Modelled from the spec: the four FriendRequest states; the backend source
(FriendGraphStore / FriendRequestService) is not in the repository checkout.
The names also occur verbatim in `frontend/src/api.ts` (`FriendRequest.status`). -/
inductive ReqStatus
  | PENDING
  | ACCEPTED
  | DECLINED
  | CANCELED
deriving DecidableEq, Repr

/-- Modelled from the spec: a FriendRequest row (id, from_user, to_user, status,
created_at, responded_at).  Matches the `FriendRequest` type in
`frontend/src/api.ts`; user references and timestamps are numbers. -/
structure FriendRequest where
  id : Nat
  from_user : Nat
  to_user : Nat
  status : ReqStatus
  created_at : Nat
  responded_at : Option Nat
deriving DecidableEq, Repr

/-- Modelled from the spec: the durable FriendGraphStore: the friend-request
records, the friendship edge set (stored as ordered pairs, read symmetrically),
a fresh-id counter and the current clock. -/
structure Store where
  requests : List FriendRequest
  friendships : List (Nat × Nat)
  nextId : Nat
  now : Nat
deriving DecidableEq, Repr

/-- Does request `r` connect the unordered pair `{a, b}` (either direction)? -/
def pairMatches (r : FriendRequest) (a b : Nat) : Bool :=
  (r.from_user == a && r.to_user == b) || (r.from_user == b && r.to_user == a)

/-- Modelled from the spec: symmetric read of the friendship edge set. -/
def areFriends (s : Store) (a b : Nat) : Bool :=
  s.friendships.any (fun p => (p.1 == a && p.2 == b) || (p.1 == b && p.2 == a))

/-- Is `r` a PENDING request between the unordered pair `{a, b}`? -/
def pendingFor (a b : Nat) (r : FriendRequest) : Bool :=
  r.status == ReqStatus.PENDING && pairMatches r a b

/-- Modelled from the spec: find a PENDING request between `a` and `b`,
regardless of direction. -/
def findPending (s : Store) (a b : Nat) : Option FriendRequest :=
  s.requests.find? (pendingFor a b)

/-- Look a request up by id. -/
def findReq (s : Store) (rid : Nat) : Option FriendRequest :=
  s.requests.find? (fun r => r.id == rid)

/-- Number of PENDING requests between the unordered pair `{a, b}`. -/
def pendingCount (s : Store) (a b : Nat) : Nat :=
  s.requests.countP (pendingFor a b)

/-- Number of friendship edges stored for the unordered pair `{a, b}`. -/
def edgeCount (s : Store) (a b : Nat) : Nat :=
  (s.friendships.filter (fun p => (p.1 == a && p.2 == b) || (p.1 == b && p.2 == a))).length

/-- Modelled from the spec: the error taxonomy of FriendRequestService. -/
inductive FrError
  | InvalidOperation
  | AlreadyFriends
  | DuplicateRequest (existing : Nat)
  | Forbidden
  | NotPending
  | NotFound
deriving DecidableEq, Repr

/-- Modelled from the spec: `create(sender, target)`: validation, the
already-friends check, the duplicate-PENDING check (either direction,
returning the existing id), then insertion of a fresh PENDING row. -/
def createReq (s : Store) (sender target : Nat) :
    Except FrError (Store × FriendRequest) :=
  if sender = target then .error .InvalidOperation
  else if areFriends s sender target then .error .AlreadyFriends
  else
    match findPending s sender target with
    | some r => .error (.DuplicateRequest r.id)
    | none =>
        let r : FriendRequest :=
          ⟨s.nextId, sender, target, .PENDING, s.now, none⟩
        .ok ({ s with requests := r :: s.requests, nextId := s.nextId + 1 }, r)

/-- Update of one request row at a terminal transition: set the new status and
stamp responded_at; rows with a different id are untouched. -/
def updReq (rid now : Nat) (st : ReqStatus) (r : FriendRequest) : FriendRequest :=
  if r.id = rid then { r with status := st, responded_at := some now } else r

/-- Transition the request `rid` to status `st` (responded_at := now). -/
def setStatus (s : Store) (rid : Nat) (st : ReqStatus) : Store :=
  { s with requests := s.requests.map (updReq rid s.now st) }

/-- Add a friendship edge for `(a, b)`. -/
def addEdge (s : Store) (a b : Nat) : Store :=
  { s with friendships := (a, b) :: s.friendships }

/-- Modelled from the spec: `accept(request_id, actor)`: only to_user may
accept, only a PENDING request may transition, and the ACCEPTED transition and
the Friendship creation happen in the same atomic unit (a single returned
store; on error no store is produced, so the caller's state is unchanged). -/
def accept (s : Store) (rid actor : Nat) : Except FrError Store :=
  match findReq s rid with
  | none => .error .NotFound
  | some r =>
      if actor ≠ r.to_user then .error .Forbidden
      else if r.status ≠ ReqStatus.PENDING then .error .NotPending
      else .ok (addEdge (setStatus s rid .ACCEPTED) r.from_user r.to_user)

/-- Modelled from the spec: `decline(request_id, actor)`: only to_user, only
from PENDING, no edge created. -/
def decline (s : Store) (rid actor : Nat) : Except FrError Store :=
  match findReq s rid with
  | none => .error .NotFound
  | some r =>
      if actor ≠ r.to_user then .error .Forbidden
      else if r.status ≠ ReqStatus.PENDING then .error .NotPending
      else .ok (setStatus s rid .DECLINED)

/-- Modelled from the spec: `cancel(request_id, actor)`: only from_user, only
from PENDING, no edge created. -/
def cancel (s : Store) (rid actor : Nat) : Except FrError Store :=
  match findReq s rid with
  | none => .error .NotFound
  | some r =>
      if actor ≠ r.from_user then .error .Forbidden
      else if r.status ≠ ReqStatus.PENDING then .error .NotPending
      else .ok (setStatus s rid .CANCELED)

/-- Modelled from the spec: `unfriend(actor, other)`: remove the edge if
present, `NotFound` otherwise; request history untouched. -/
def unfriend (s : Store) (actor other : Nat) : Except FrError Store :=
  if areFriends s actor other then
    .ok { s with
          friendships := s.friendships.filter
            (fun p => !((p.1 == actor && p.2 == other) || (p.1 == other && p.2 == actor))) }
  else .error .NotFound

/-! ## RelationshipResolver (spec section 4.2) -/

/-- The five relationship values; the same closed union appears as
`FriendStatus` in `frontend/src/api.ts`. -/
inductive FriendStatus
  | SELF
  | FRIENDS
  | OUTGOING
  | INCOMING
  | NONE
deriving DecidableEq, Repr

/-- Modelled from the spec: `status(viewer, target)`, resolution order
SELF, FRIENDS, OUTGOING (with request id), INCOMING (with request id), NONE;
a pure function of the store returning `{status, request_id}` as in
`getFriendshipStatus` of `frontend/src/api.ts`. -/
def statusOf (s : Store) (viewer target : Nat) : FriendStatus × Option Nat :=
  if viewer = target then (.SELF, none)
  else if areFriends s viewer target then (.FRIENDS, none)
  else
    match s.requests.find?
        (fun r => r.status == ReqStatus.PENDING && r.from_user == viewer && r.to_user == target) with
    | some r => (.OUTGOING, some r.id)
    | none =>
        match s.requests.find?
            (fun r => r.status == ReqStatus.PENDING && r.from_user == target && r.to_user == viewer) with
        | some r => (.INCOMING, some r.id)
        | none => (.NONE, none)

/-! ## Activity feed (spec section 4.3, frontend/src/pages/Feed.tsx) -/

/-- The closed verb union of the `Activity` type in `frontend/src/pages/Feed.tsx`
(and the Feed component in `frontend/src/pages/Friends.tsx`):
`"RATED" | "STATUS" | "SESSION"`. -/
inductive Verb
  | RATED
  | STATUS
  | SESSION
deriving DecidableEq, Repr

/-- The string literal each `Verb` constructor stands for in the source. -/
def verbName : Verb → String
  | .RATED => "RATED"
  | .STATUS => "STATUS"
  | .SESSION => "SESSION"

/-- The verb vocabulary the specification document states for ActivityEvent
(spec section 3): STATUS_CHANGE, RATED, SESSION_LOGGED.  Kept separate from
`verbName` so the two vocabularies can be compared. -/
def specVerbNames : List String :=
  ["STATUS_CHANGE", "RATED", "SESSION_LOGGED"]

/-- An activity event as the feed consumes it: id, actor (user reference),
verb and creation timestamp (timestamps as numbers). -/
structure Activity where
  id : Nat
  actor : Nat
  verb : Verb
  created_at : Nat
deriving DecidableEq, Repr

/-- Feed ordering: `a` precedes `b` when `a` is newer, ties broken by larger id
(created_at descending, then id descending). -/
def feedLE (a b : Activity) : Prop :=
  b.created_at < a.created_at ∨ (b.created_at = a.created_at ∧ b.id ≤ a.id)

/-- Strict feed ordering: newer first, ties broken by strictly larger id. -/
def feedLT (a b : Activity) : Prop :=
  b.created_at < a.created_at ∨ (b.created_at = a.created_at ∧ b.id < a.id)

instance : DecidableRel feedLE := fun a b => by unfold feedLE; infer_instance

instance : DecidableRel feedLT := fun a b => by unfold feedLT; infer_instance

instance : IsTotal Activity feedLE := ⟨by intro a b; unfold feedLE; omega⟩

instance : IsTrans Activity feedLE := ⟨by intro a b c h1 h2; unfold feedLE at h1 h2 ⊢; omega⟩

/-- Modelled from the spec: the feed's total ordering pass (created_at
descending, id descending); the backend feed query is not in the checkout. -/
def feedSorted (events : List Activity) : List Activity :=
  List.insertionSort feedLE events

/-- Modelled from the spec: feed visibility: the viewer's own activity plus
that of current friends. -/
def visibleTo (s : Store) (viewer : Nat) (e : Activity) : Bool :=
  e.actor == viewer || areFriends s viewer e.actor

/-- Modelled from the spec: `feed(viewer, limit, offset)`: filter by the
current friend set, order by created_at descending with id-descending
tie-break, then apply offset/limit. -/
def feed (s : Store) (events : List Activity) (viewer limit offset : Nat) :
    List Activity :=
  ((feedSorted (events.filter (visibleTo s viewer))).drop offset).take limit

/-- The client's has-more rule from `frontend/src/pages/Feed.tsx`:
`setHasMore(data.length === limit)`. -/
def hasMoreOf (data : List Activity) (limit : Nat) : Bool :=
  data.length == limit

/-- The infinite-scroll guard from `frontend/src/pages/Feed.tsx`: the
load-more observer is installed only when `hasMore` holds and no load is in
flight (`if (!hasMore || loading) return`). -/
def willLoadMore (hasMore loading : Bool) : Bool :=
  hasMore && !loading

/-! ## Friends-list response shapes (frontend/src/api.ts, pages/Friends.tsx) -/

/-- The `MiniUser` type of `frontend/src/api.ts` (also `Mini` in
`frontend/src/pages/Friends.tsx`): `{id, username, avatar_url?}`. -/
structure MiniUser where
  id : Nat
  username : String
  avatar_url : Option String
deriving DecidableEq, Repr

/-- The `Friendship` type of `frontend/src/pages/Friends.tsx`:
`{id, friend: Mini, created_at}` — the element shape of `GET /friends/`
as consumed by `loadAll` (`setMine(f.data.results)`). -/
structure Friendship where
  id : Nat
  friend : MiniUser
  created_at : String
deriving DecidableEq, Repr

/-- A small JSON value model used to state what the declared response shapes
accept and produce. -/
inductive Json
  | null
  | num (n : Nat)
  | str (s : String)
  | arr (elems : List Json)
  | obj (fields : List (String × Json))

/-- Field lookup in a JSON object (first binding wins). -/
def Json.get? : Json → String → Option Json
  | .obj fields, k =>
      match fields.find? (fun p => p.1 == k) with
      | some p => some p.2
      | none => none
  | _, _ => none

/-- Encoding of a `MiniUser` value (absent avatar encoded as null). -/
def encodeMiniUser (m : MiniUser) : Json :=
  .obj [("id", .num m.id), ("username", .str m.username),
        ("avatar_url", match m.avatar_url with | some u => .str u | none => .null)]

/-- Encoding of a `Friendship` value: the MiniUser sits under the
`friend` key, as the rendering code reads it (`f.friend.username`). -/
def encodeFriendship (f : Friendship) : Json :=
  .obj [("id", .num f.id), ("friend", encodeMiniUser f.friend),
        ("created_at", .str f.created_at)]

/-- Decoder for the `MiniUser` shape: requires the `id` and `username`
fields the rendering code dereferences (`u.id`, `u.username`); `avatar_url`
is optional. -/
def decodeMiniUser (j : Json) : Option MiniUser :=
  match j.get? "id", j.get? "username" with
  | some (.num i), some (.str u) =>
      some ⟨i, u, match j.get? "avatar_url" with | some (.str a) => some a | _ => none⟩
  | _, _ => none

/-- Decoder for the `Friendship` shape: requires `id`, a nested `friend`
MiniUser and `created_at`, as `loadAll`/the My-friends rendering dereference
them (`f.id`, `f.friend.username`, `f.friend.avatar_url`). -/
def decodeFriendship (j : Json) : Option Friendship :=
  match j.get? "id", (j.get? "friend").bind (fun x => decodeMiniUser x), j.get? "created_at" with
  | some (.num i), some m, some (.str c) => some ⟨i, m, c⟩
  | _, _, _ => none

/-- Both friends endpoints are read through the `results` key of the body
(`r.data?.results ?? []` in `getFriendsOf`, `f.data.results || []` in
`loadAll`); a missing or non-array `results` yields the empty list. -/
def parseFriendsBody (body : Json) : List Json :=
  match body.get? "results" with
  | some (.arr xs) => xs
  | _ => []

/-! ## People search (frontend/src/pages/Friends.tsx) -/

/-- Whitespace predicate for the query-trimming model. -/
def isSpaceChar (c : Char) : Bool :=
  c == ' ' || c == '\t' || c == '\n' || c == '\r'

/-- The `q.trim()` call of the search handlers, on queries modelled as
character lists: strip whitespace from both ends. -/
def trimChars (q : List Char) : List Char :=
  ((q.dropWhile isSpaceChar).reverse.dropWhile isSpaceChar).reverse

/-- Outcome of a search handler: clear the result list without any network
request, or issue one GET request with a path and a query parameter. -/
inductive SearchAction
  | clearResults
  | request (path : String) (q : List Char)
deriving DecidableEq, Repr

/-- The `searchPeople` handler of `frontend/src/pages/Friends.tsx`: queries
whose trimmed length is below 2 clear the list and return; otherwise
`GET /users/` is issued with the raw query as the `q` parameter. -/
def searchPeople (q : List Char) : SearchAction :=
  if (trimChars q).length < 2 then .clearResults
  else .request "/users/" q

/-- The `doSearch` handler of the Feed page (second document in
`frontend/src/pages/Friends.tsx`): the query is trimmed first; short terms
clear the list, otherwise `GET /users/` is issued with the trimmed term. -/
def doSearch (q : List Char) : SearchAction :=
  if (trimChars q).length < 2 then .clearResults
  else .request "/users/" (trimChars q)

/-! ## Silent-refresh interceptor (frontend/src/api.ts) -/

/-- An axios request config as the interceptor sees it: only the `_retry`
marker matters to the retry discipline. -/
structure ReqConfig where
  _retry : Bool
deriving DecidableEq, Repr

/-- The browser-side state the interceptor touches: the two stored tokens and
the module-level `isRefreshing` flag. -/
structure ClientState where
  access : Option String
  refresh : Option String
  isRefreshing : Bool
deriving DecidableEq, Repr

/-- The effect of `localStorage.clear()` on the stored credentials. -/
def clearStorage (st : ClientState) : ClientState :=
  { st with access := none, refresh := none }

/-- What the interceptor resolves to: reject the error (passing it through),
or re-issue the original request once with a marked config. -/
inductive RespOutcome
  | reject
  | retry (cfg : ReqConfig)
deriving DecidableEq, Repr

/-- The response interceptor of `frontend/src/api.ts`.  `status` is the HTTP
status of the failed response (if any), `original` the failed request's config
(if any), and `refreshResult` the outcome of the refresh this request observes:
for a waiter, the token handed to it by the in-flight refresh; otherwise the
result of `POST /auth/refresh/` (`none` means the call threw). -/
def handleResponseError (st : ClientState) (status : Option Nat)
    (original : Option ReqConfig) (refreshResult : Option String) :
    ClientState × RespOutcome :=
  match status, original with
  | some 401, some cfg =>
      if cfg._retry then (st, .reject)
      else
        let cfg2 : ReqConfig := { cfg with _retry := true }
        match st.refresh with
        | none => (clearStorage st, .reject)
        | some _ =>
            if st.isRefreshing then
              match refreshResult with
              | some _ => (st, .retry cfg2)
              | none => (st, .reject)
            else
              match refreshResult with
              | some newAccess =>
                  ({ st with access := some newAccess, isRefreshing := false }, .retry cfg2)
              | none =>
                  ({ clearStorage st with isRefreshing := false }, .reject)
  | _, _ => (st, .reject)

/-! ## Serialized concurrency model (spec section 5)

Every mutating operation runs inside a single atomic unit of work, so a set of
concurrent calls is modelled by executing them in an arbitrary serial order;
an operation that fails leaves the caller's store untouched. -/

/-- The three terminal-transition calls that can race on one request id. -/
inductive TransitionOp
  | acceptOp
  | declineOp
  | cancelOp
deriving DecidableEq, Repr

/-- Modelled from the spec: run one terminal-transition call on request `rid`
atomically; `toU` is the recipient issuing accept/decline, `fromU` the sender
issuing cancel.  Returns the store after the call and whether it succeeded;
a failed call leaves the store unchanged. -/
def applyOp (s : Store) (rid toU fromU : Nat) : TransitionOp → Store × Bool
  | .acceptOp =>
      match accept s rid toU with
      | .ok s2 => (s2, true)
      | .error _ => (s, false)
  | .declineOp =>
      match decline s rid toU with
      | .ok s2 => (s2, true)
      | .error _ => (s, false)
  | .cancelOp =>
      match cancel s rid fromU with
      | .ok s2 => (s2, true)
      | .error _ => (s, false)

/-- Run a serial order of racing transition calls, counting the successes. -/
def runOps (rid toU fromU : Nat) : Store → List TransitionOp → Store × Nat
  | s, [] => (s, 0)
  | s, o :: rest =>
      let step := applyOp s rid toU fromU o
      let tail := runOps rid toU fromU step.1 rest
      (tail.1, (if step.2 then 1 else 0) + tail.2)

/-- The terminal status each racing call tries to install. -/
def opStatus : TransitionOp → ReqStatus
  | .acceptOp => .ACCEPTED
  | .declineOp => .DECLINED
  | .cancelOp => .CANCELED

/-- A client call to any mutating operation of FriendRequestService. -/
inductive Action
  | createA (sender target : Nat)
  | acceptA (rid actor : Nat)
  | declineA (rid actor : Nat)
  | cancelA (rid actor : Nat)
  | unfriendA (actor other : Nat)
deriving DecidableEq, Repr

/-- Modelled from the spec: execute one service call atomically; a failed call
leaves the store unchanged. -/
def stepA (s : Store) (a : Action) : Store :=
  match a with
  | .createA x y =>
      match createReq s x y with
      | .ok p => p.1
      | .error _ => s
  | .acceptA rid actor =>
      match accept s rid actor with
      | .ok s2 => s2
      | .error _ => s
  | .declineA rid actor =>
      match decline s rid actor with
      | .ok s2 => s2
      | .error _ => s
  | .cancelA rid actor =>
      match cancel s rid actor with
      | .ok s2 => s2
      | .error _ => s
  | .unfriendA actor other =>
      match unfriend s actor other with
      | .ok s2 => s2
      | .error _ => s

/-- Run a serial history of service calls. -/
def runA (s : Store) (acts : List Action) : Store :=
  acts.foldl stepA s

/-- The initial store: no requests, no friendships. -/
def emptyStore : Store := ⟨[], [], 0, 0⟩

/-- Store invariant: at most one PENDING request per unordered pair. -/
def PendingUnique (s : Store) : Prop :=
  ∀ a b : Nat, pendingCount s a b ≤ 1

/-- Store invariant: no PENDING request between users that are already
friends. -/
def NoPendingBetweenFriends (s : Store) : Prop :=
  ∀ a b : Nat, areFriends s a b = true → pendingCount s a b = 0

/-- The conjunction of the store invariants maintained by every operation. -/
def WfStore (s : Store) : Prop :=
  PendingUnique s ∧ NoPendingBetweenFriends s

/-! ## Concrete fixtures used by witnesses and counterexamples -/

/-- A store holding a single PENDING request 1 → 2 with id 0. -/
def demoPendingStore : Store :=
  ⟨[⟨0, 1, 2, .PENDING, 0, none⟩], [], 1, 5⟩

/-- An empty store for feed fixtures (user 1 views only their own events). -/
def demoFeedStore : Store := ⟨[], [], 0, 0⟩

/-- One activity event by user 1. -/
def demoOneEvent : List Activity := [⟨1, 1, .RATED, 10⟩]

/-- Three activity events by user 1, two sharing a timestamp. -/
def demoThreeEvents : List Activity :=
  [⟨1, 1, .RATED, 10⟩, ⟨2, 1, .STATUS, 10⟩, ⟨3, 1, .SESSION, 5⟩]

/-- A friendship row as the My-friends list receives it. -/
def demoFriendshipRow : Friendship := ⟨5, ⟨2, "bob", none⟩, "2024-01-01"⟩

/-- A logged-in client with both tokens stored and no refresh in flight. -/
def demoWithRefresh : ClientState := ⟨some "acc", some "ref", false⟩

/-- A client whose stored refresh token is missing. -/
def demoNoRefresh : ClientState := ⟨some "acc", none, false⟩

/-! ## Basic lemmas about the request store -/

theorem updReq_id (rid now : Nat) (st : ReqStatus) (r : FriendRequest) :
    (updReq rid now st r).id = r.id := by
  unfold updReq; split <;> rfl

theorem updReq_self {rid now : Nat} {st : ReqStatus} {r : FriendRequest}
    (h : r.id = rid) :
    updReq rid now st r = { r with status := st, responded_at := some now } := by
  unfold updReq; rw [if_pos h]

theorem find?_map_updReq (rid now : Nat) (st : ReqStatus) (l : List FriendRequest) :
    (l.map (updReq rid now st)).find? (fun r => r.id == rid) =
      (l.find? (fun r => r.id == rid)).map (updReq rid now st) := by
  induction l with
  | nil => rfl
  | cons a l ih =>
      by_cases h : a.id = rid
      · have hb : (a.id == rid) = true := by simp [h]
        have hb2 : ((updReq rid now st a).id == rid) = true := by
          rw [updReq_id]; exact hb
        simp [List.find?_cons, hb, hb2]
      · have hb : (a.id == rid) = false := by simp [h]
        have hb2 : ((updReq rid now st a).id == rid) = false := by
          rw [updReq_id]; exact hb
        simp [List.find?_cons, hb, hb2, ih]

theorem findReq_setStatus (s : Store) (rid : Nat) (st : ReqStatus) :
    findReq (setStatus s rid st) rid = (findReq s rid).map (updReq rid s.now st) := by
  simp only [findReq, setStatus]
  exact find?_map_updReq rid s.now st s.requests

theorem findReq_id {s : Store} {rid : Nat} {r : FriendRequest}
    (h : findReq s rid = some r) : r.id = rid := by
  unfold findReq at h
  have := List.find?_some h
  simpa using this

theorem findReq_mem {s : Store} {rid : Nat} {r : FriendRequest}
    (h : findReq s rid = some r) : r ∈ s.requests := by
  unfold findReq at h
  exact List.mem_of_find?_eq_some h

theorem edgeCount_addEdge (s : Store) (a b : Nat) :
    edgeCount (addEdge s a b) a b = edgeCount s a b + 1 := by
  simp [edgeCount, addEdge]

theorem edgeCount_setStatus (s : Store) (rid : Nat) (st : ReqStatus) (a b : Nat) :
    edgeCount (setStatus s rid st) a b = edgeCount s a b := rfl

/-! ## The terminal transitions: success and failure shapes -/

theorem accept_pending {s : Store} {rid : Nat} {r : FriendRequest}
    (hfind : findReq s rid = some r) (hpend : r.status = .PENDING) :
    accept s rid r.to_user =
      .ok (addEdge (setStatus s rid .ACCEPTED) r.from_user r.to_user) := by
  unfold accept; rw [hfind]; simp [hpend]

theorem decline_pending {s : Store} {rid : Nat} {r : FriendRequest}
    (hfind : findReq s rid = some r) (hpend : r.status = .PENDING) :
    decline s rid r.to_user = .ok (setStatus s rid .DECLINED) := by
  unfold decline; rw [hfind]; simp [hpend]

theorem cancel_pending {s : Store} {rid : Nat} {r : FriendRequest}
    (hfind : findReq s rid = some r) (hpend : r.status = .PENDING) :
    cancel s rid r.from_user = .ok (setStatus s rid .CANCELED) := by
  unfold cancel; rw [hfind]; simp [hpend]

theorem accept_nonpending {s : Store} {rid : Nat} {r : FriendRequest}
    (hfind : findReq s rid = some r) (hst : r.status ≠ .PENDING) (actor : Nat) :
    ∃ e, accept s rid actor = .error e := by
  unfold accept; rw [hfind]
  dsimp only
  by_cases hA : actor ≠ r.to_user
  · exact ⟨_, by rw [if_pos hA]⟩
  · exact ⟨_, by rw [if_neg hA, if_pos hst]⟩

theorem decline_nonpending {s : Store} {rid : Nat} {r : FriendRequest}
    (hfind : findReq s rid = some r) (hst : r.status ≠ .PENDING) (actor : Nat) :
    ∃ e, decline s rid actor = .error e := by
  unfold decline; rw [hfind]
  dsimp only
  by_cases hA : actor ≠ r.to_user
  · exact ⟨_, by rw [if_pos hA]⟩
  · exact ⟨_, by rw [if_neg hA, if_pos hst]⟩

theorem cancel_nonpending {s : Store} {rid : Nat} {r : FriendRequest}
    (hfind : findReq s rid = some r) (hst : r.status ≠ .PENDING) (actor : Nat) :
    ∃ e, cancel s rid actor = .error e := by
  unfold cancel; rw [hfind]
  dsimp only
  by_cases hA : actor ≠ r.from_user
  · exact ⟨_, by rw [if_pos hA]⟩
  · exact ⟨_, by rw [if_neg hA, if_pos hst]⟩

theorem applyOp_nonpending {s : Store} {rid : Nat} {r : FriendRequest}
    (hfind : findReq s rid = some r) (hst : r.status ≠ .PENDING)
    (toU fromU : Nat) (o : TransitionOp) :
    applyOp s rid toU fromU o = (s, false) := by
  cases o with
  | acceptOp =>
      obtain ⟨e, he⟩ := accept_nonpending hfind hst toU
      simp [applyOp, he]
  | declineOp =>
      obtain ⟨e, he⟩ := decline_nonpending hfind hst toU
      simp [applyOp, he]
  | cancelOp =>
      obtain ⟨e, he⟩ := cancel_nonpending hfind hst fromU
      simp [applyOp, he]

theorem runOps_nonpending {s : Store} {rid : Nat} {r : FriendRequest}
    (hfind : findReq s rid = some r) (hst : r.status ≠ .PENDING)
    (toU fromU : Nat) (ops : List TransitionOp) :
    runOps rid toU fromU s ops = (s, 0) := by
  induction ops with
  | nil => rfl
  | cons o rest ih =>
      simp [runOps, applyOp_nonpending hfind hst toU fromU o, ih]

theorem applyOp_pending {s : Store} {rid : Nat} {r : FriendRequest}
    (hfind : findReq s rid = some r) (hpend : r.status = .PENDING)
    (o : TransitionOp) :
    ∃ s2, applyOp s rid r.to_user r.from_user o = (s2, true) ∧
      findReq s2 rid = some { r with status := opStatus o, responded_at := some s.now } ∧
      edgeCount s2 r.from_user r.to_user =
        edgeCount s r.from_user r.to_user + (if o = .acceptOp then 1 else 0) := by
  have hid : r.id = rid := findReq_id hfind
  cases o with
  | acceptOp =>
      refine ⟨addEdge (setStatus s rid .ACCEPTED) r.from_user r.to_user, ?_, ?_, ?_⟩
      · simp [applyOp, accept_pending hfind hpend]
      · have h1 : findReq (addEdge (setStatus s rid .ACCEPTED) r.from_user r.to_user) rid
            = findReq (setStatus s rid .ACCEPTED) rid := rfl
        rw [h1, findReq_setStatus, hfind]
        simp [updReq_self hid, opStatus]
      · rw [edgeCount_addEdge, edgeCount_setStatus]; simp
  | declineOp =>
      refine ⟨setStatus s rid .DECLINED, ?_, ?_, ?_⟩
      · simp [applyOp, decline_pending hfind hpend]
      · rw [findReq_setStatus, hfind]
        simp [updReq_self hid, opStatus]
      · rw [edgeCount_setStatus]; simp
  | cancelOp =>
      refine ⟨setStatus s rid .CANCELED, ?_, ?_, ?_⟩
      · simp [applyOp, cancel_pending hfind hpend]
      · rw [findReq_setStatus, hfind]
        simp [updReq_self hid, opStatus]
      · rw [edgeCount_setStatus]; simp

/-- C1: for every PENDING friend request, running the racing accept, decline
and cancel calls (in fact any nonempty serial order of such calls, which is
how the spec's atomic units serialize concurrency) yields exactly one
successful terminal transition; the surviving row is terminal, and the
friendship edge for the pair is created exactly when the winner was accept —
never more than one edge for the request, and the transition and the edge
creation occur in the same atomic step. -/
theorem single_winner_terminal_transition (s : Store) (rid : Nat)
    (r : FriendRequest) (ops : List TransitionOp)
    (hfind : findReq s rid = some r) (hpend : r.status = .PENDING)
    (hne : ops ≠ []) :
    (runOps rid r.to_user r.from_user s ops).2 = 1 ∧
    (∃ r2, findReq (runOps rid r.to_user r.from_user s ops).1 rid = some r2 ∧
      r2.status ≠ .PENDING ∧
      edgeCount (runOps rid r.to_user r.from_user s ops).1 r.from_user r.to_user =
        edgeCount s r.from_user r.to_user +
          (if r2.status = .ACCEPTED then 1 else 0)) := by
  cases ops with
  | nil => exact absurd rfl hne
  | cons o rest =>
      obtain ⟨s2, happ, hfind2, hedge⟩ := applyOp_pending hfind hpend o
      have hterm : ({ r with status := opStatus o, responded_at := some s.now } :
          FriendRequest).status ≠ ReqStatus.PENDING := by
        cases o <;> simp [opStatus]
      have hrest := runOps_nonpending hfind2 hterm r.to_user r.from_user rest
      constructor
      · simp [runOps, happ, hrest]
      · refine ⟨{ r with status := opStatus o, responded_at := some s.now }, ?_, hterm, ?_⟩
        · simp [runOps, happ, hrest, hfind2]
        · simp only [runOps, happ, hrest]
          rw [hedge]
          congr 1
          cases o <;> simp [opStatus]

/-- Witness for C1 at a concrete store: request id 0, sender 1, recipient 2,
all three racing calls issued. -/
theorem single_winner_terminal_transition_witness :
    (runOps 0 2 1 demoPendingStore
      [TransitionOp.acceptOp, TransitionOp.declineOp, TransitionOp.cancelOp]).2 = 1 ∧
    (∃ r2, findReq (runOps 0 2 1 demoPendingStore
        [TransitionOp.acceptOp, TransitionOp.declineOp, TransitionOp.cancelOp]).1 0 = some r2 ∧
      r2.status ≠ .PENDING ∧
      edgeCount (runOps 0 2 1 demoPendingStore
          [TransitionOp.acceptOp, TransitionOp.declineOp, TransitionOp.cancelOp]).1 1 2 =
        edgeCount demoPendingStore 1 2 +
          (if r2.status = .ACCEPTED then 1 else 0)) :=
  single_winner_terminal_transition demoPendingStore 0 ⟨0, 1, 2, .PENDING, 0, none⟩
    [TransitionOp.acceptOp, TransitionOp.declineOp, TransitionOp.cancelOp]
    (by decide) (by decide) (by decide)

/-! ## Pair symmetry and counting lemmas -/

theorem updReq_ne {rid now : Nat} {st : ReqStatus} {r : FriendRequest}
    (h : r.id ≠ rid) : updReq rid now st r = r := by
  unfold updReq; rw [if_neg h]

theorem pairMatches_symm (r : FriendRequest) (a b : Nat) :
    pairMatches r a b = pairMatches r b a := by
  unfold pairMatches
  exact Bool.or_comm _ _

theorem areFriends_symm (s : Store) (a b : Nat) :
    areFriends s a b = areFriends s b a := by
  unfold areFriends
  congr 1
  funext p
  exact Bool.or_comm _ _

theorem two_le_countP {α : Type} {l : List α} {p : α → Bool} {x y : α}
    (hx : x ∈ l) (hy : y ∈ l) (hxy : x ≠ y)
    (hpx : p x = true) (hpy : p y = true) : 2 ≤ l.countP p := by
  rw [List.countP_eq_length_filter]
  have hx2 : x ∈ l.filter p := List.mem_filter.mpr ⟨hx, hpx⟩
  have hy2 : y ∈ l.filter p := List.mem_filter.mpr ⟨hy, hpy⟩
  match hfl : l.filter p with
  | [] => rw [hfl] at hx2; simp at hx2
  | [z] =>
      rw [hfl] at hx2 hy2
      simp at hx2 hy2
      exact absurd (hx2.trans hy2.symm) hxy
  | z1 :: z2 :: t => simp

theorem pendingCount_setStatus_le (s : Store) (rid : Nat) (st : ReqStatus)
    (hst : st ≠ .PENDING) (a b : Nat) :
    pendingCount (setStatus s rid st) a b ≤ pendingCount s a b := by
  unfold pendingCount setStatus
  dsimp only
  rw [List.countP_map]
  apply List.countP_mono_left
  intro r _ h
  simp only [Function.comp_apply] at h
  by_cases hid : r.id = rid
  · rw [updReq_self hid] at h
    simp [pendingFor] at h
    exact absurd h.1 hst
  · rwa [updReq_ne hid] at h

theorem pendingCount_requests_eq {s t : Store} (h : t.requests = s.requests)
    (a b : Nat) : pendingCount t a b = pendingCount s a b := by
  unfold pendingCount; rw [h]

theorem areFriends_addEdge (s : Store) (x y a b : Nat) :
    areFriends (addEdge s x y) a b =
      (((x == a && y == b) || (x == b && y == a)) || areFriends s a b) := by
  simp [areFriends, addEdge, List.any_cons]

/-! ## Inversion lemmas for the mutating operations -/

theorem createReq_ok_inv {s : Store} {x y : Nat} {s1 : Store} {r1 : FriendRequest}
    (h : createReq s x y = .ok (s1, r1)) :
    x ≠ y ∧ areFriends s x y = false ∧ findPending s x y = none ∧
    r1 = ⟨s.nextId, x, y, .PENDING, s.now, none⟩ ∧
    s1 = { s with requests := r1 :: s.requests, nextId := s.nextId + 1 } := by
  unfold createReq at h
  split at h
  · simp at h
  · rename_i hxy
    split at h
    · simp at h
    · rename_i hfr
      split at h
      · simp at h
      · rename_i hnone
        simp only [Except.ok.injEq, Prod.mk.injEq] at h
        obtain ⟨hs1, hr1⟩ := h
        refine ⟨hxy, by simpa using hfr, hnone, hr1.symm, ?_⟩
        rw [← hs1, ← hr1]

theorem accept_ok_inv {s : Store} {rid actor : Nat} {s2 : Store}
    (h : accept s rid actor = .ok s2) :
    ∃ r, findReq s rid = some r ∧ r.status = .PENDING ∧
      s2 = addEdge (setStatus s rid .ACCEPTED) r.from_user r.to_user := by
  unfold accept at h
  split at h
  · simp at h
  · rename_i r hr
    split at h
    · simp at h
    · split at h
      · simp at h
      · rename_i hact hst
        simp only [Except.ok.injEq] at h
        exact ⟨r, hr, not_not.mp hst, h.symm⟩

theorem decline_ok_inv {s : Store} {rid actor : Nat} {s2 : Store}
    (h : decline s rid actor = .ok s2) :
    s2 = setStatus s rid .DECLINED := by
  unfold decline at h
  split at h
  · simp at h
  · split at h
    · simp at h
    · split at h
      · simp at h
      · simp only [Except.ok.injEq] at h
        exact h.symm

theorem cancel_ok_inv {s : Store} {rid actor : Nat} {s2 : Store}
    (h : cancel s rid actor = .ok s2) :
    s2 = setStatus s rid .CANCELED := by
  unfold cancel at h
  split at h
  · simp at h
  · split at h
    · simp at h
    · split at h
      · simp at h
      · simp only [Except.ok.injEq] at h
        exact h.symm

theorem unfriend_ok_inv {s : Store} {x y : Nat} {s2 : Store}
    (h : unfriend s x y = .ok s2) :
    s2.requests = s.requests ∧
    ∀ a b, areFriends s2 a b = true → areFriends s a b = true := by
  unfold unfriend at h
  split at h
  · simp only [Except.ok.injEq] at h
    subst h
    refine ⟨rfl, ?_⟩
    intro a b hab
    unfold areFriends at hab ⊢
    rw [List.any_eq_true] at hab ⊢
    obtain ⟨p, hp, hpred⟩ := hab
    exact ⟨p, (List.mem_filter.mp hp).1, hpred⟩
  · simp at h

/-! ## Invariant preservation -/

theorem pair_swap_eq {x y a b : Nat}
    (hm : ((x == a && y == b) || (x == b && y == a)) = true) :
    (∀ q : FriendRequest, pendingFor a b q = pendingFor x y q) ∧
    (∀ s : Store, areFriends s a b = areFriends s x y) := by
  simp only [Bool.or_eq_true, Bool.and_eq_true, beq_iff_eq] at hm
  rcases hm with ⟨ha, hb⟩ | ⟨ha, hb⟩
  · subst ha; subst hb; exact ⟨fun q => rfl, fun s => rfl⟩
  · subst ha; subst hb
    constructor
    · intro q
      unfold pendingFor
      rw [pairMatches_symm]
    · intro s
      exact areFriends_symm s _ _

theorem pendingFor_new_request {s : Store} {x y a b : Nat}
    (hm : pendingFor a b (⟨s.nextId, x, y, .PENDING, s.now, none⟩ : FriendRequest) = true) :
    ((x == a && y == b) || (x == b && y == a)) = true := by
  simpa [pendingFor, pairMatches] using hm

theorem pendingUnique_create {s : Store} {x y : Nat} {s1 : Store} {r1 : FriendRequest}
    (h : createReq s x y = .ok (s1, r1)) (hPU : PendingUnique s) :
    PendingUnique s1 := by
  obtain ⟨hxy, hfr, hnone, hr1, hs1⟩ := createReq_ok_inv h
  intro a b
  unfold pendingCount
  rw [hs1]
  dsimp only
  rw [List.countP_cons]
  by_cases hm : pendingFor a b r1 = true
  · have hm2 : pendingFor a b (⟨s.nextId, x, y, .PENDING, s.now, none⟩ : FriendRequest) = true := by
      rw [← hr1]; exact hm
    have hm3 : ((x == a && y == b) || (x == b && y == a)) = true :=
      pendingFor_new_request hm2
    obtain ⟨hq, _⟩ := pair_swap_eq hm3
    have hz : s.requests.countP (pendingFor a b) = 0 := by
      rw [List.countP_eq_zero]
      intro q hqmem hq2
      have hnot := List.find?_eq_none.mp hnone q hqmem
      rw [hq q] at hq2
      exact hnot hq2
    rw [hz, hm]
    simp
  · rw [if_neg hm]
    have := hPU a b
    unfold pendingCount at this
    omega

theorem noPending_create {s : Store} {x y : Nat} {s1 : Store} {r1 : FriendRequest}
    (h : createReq s x y = .ok (s1, r1)) (hNP : NoPendingBetweenFriends s) :
    NoPendingBetweenFriends s1 := by
  obtain ⟨hxy, hfr, hnone, hr1, hs1⟩ := createReq_ok_inv h
  intro a b hab
  have habS : areFriends s a b = true := by
    have heq : areFriends s1 a b = areFriends s a b := by
      unfold areFriends; rw [hs1]
    rwa [heq] at hab
  have hz := hNP a b habS
  unfold pendingCount at hz ⊢
  rw [hs1]
  dsimp only
  rw [List.countP_cons, hz]
  cases hpf : pendingFor a b r1 with
  | false => simp [hpf]
  | true =>
      exfalso
      have hm2 : pendingFor a b (⟨s.nextId, x, y, .PENDING, s.now, none⟩ : FriendRequest) = true := by
        rw [← hr1]; exact hpf
      have hm3 : ((x == a && y == b) || (x == b && y == a)) = true :=
        pendingFor_new_request hm2
      obtain ⟨_, hsEq⟩ := pair_swap_eq hm3
      rw [hsEq s] at habS
      rw [habS] at hfr
      simp at hfr

theorem wf_step (s : Store) (act : Action) (h : WfStore s) : WfStore (stepA s act) := by
  obtain ⟨hPU, hNP⟩ := h
  cases act with
  | createA x y =>
      simp only [stepA]
      cases hc : createReq s x y with
      | error e => exact ⟨hPU, hNP⟩
      | ok p =>
          obtain ⟨s1, r1⟩ := p
          dsimp only
          exact ⟨pendingUnique_create hc hPU, noPending_create hc hNP⟩
  | acceptA rid actor =>
      simp only [stepA]
      cases hc : accept s rid actor with
      | error e => exact ⟨hPU, hNP⟩
      | ok s2 =>
          dsimp only
          obtain ⟨r, hr, hst, hs2⟩ := accept_ok_inv hc
          subst hs2
          have hreqEq : (addEdge (setStatus s rid .ACCEPTED) r.from_user r.to_user).requests
              = (setStatus s rid .ACCEPTED).requests := rfl
          constructor
          · intro a b
            rw [pendingCount_requests_eq hreqEq]
            exact le_trans (pendingCount_setStatus_le s rid _ (by decide) a b) (hPU a b)
          · intro a b hab
            rw [pendingCount_requests_eq hreqEq]
            rw [areFriends_addEdge, Bool.or_eq_true] at hab
            rcases hab with hnew | hold
            · obtain ⟨hq, _⟩ := pair_swap_eq hnew
              unfold pendingCount setStatus
              dsimp only
              rw [List.countP_map, List.countP_eq_zero]
              intro q hqmem hq2
              simp only [Function.comp_apply] at hq2
              by_cases hid : q.id = rid
              · rw [updReq_self hid] at hq2
                unfold pendingFor at hq2
                simp at hq2
              · rw [updReq_ne hid] at hq2
                rw [hq q] at hq2
                have hrp : pendingFor r.from_user r.to_user r = true := by
                  unfold pendingFor pairMatches
                  simp [hst]
                have hqr : q ≠ r := fun he => hid (he ▸ findReq_id hr)
                have h2 := two_le_countP hqmem (findReq_mem hr) hqr hq2 hrp
                have h1 := hPU r.from_user r.to_user
                unfold pendingCount at h1
                omega
            · have holdS : areFriends s a b = true := hold
              have hz := hNP a b holdS
              have hle := pendingCount_setStatus_le s rid ReqStatus.ACCEPTED (by decide) a b
              omega
  | declineA rid actor =>
      simp only [stepA]
      cases hc : decline s rid actor with
      | error e => exact ⟨hPU, hNP⟩
      | ok s2 =>
          dsimp only
          have hs2 := decline_ok_inv hc
          subst hs2
          constructor
          · intro a b
            exact le_trans (pendingCount_setStatus_le s rid _ (by decide) a b) (hPU a b)
          · intro a b hab
            have hz := hNP a b hab
            have hle := pendingCount_setStatus_le s rid ReqStatus.DECLINED (by decide) a b
            omega
  | cancelA rid actor =>
      simp only [stepA]
      cases hc : cancel s rid actor with
      | error e => exact ⟨hPU, hNP⟩
      | ok s2 =>
          dsimp only
          have hs2 := cancel_ok_inv hc
          subst hs2
          constructor
          · intro a b
            exact le_trans (pendingCount_setStatus_le s rid _ (by decide) a b) (hPU a b)
          · intro a b hab
            have hz := hNP a b hab
            have hle := pendingCount_setStatus_le s rid ReqStatus.CANCELED (by decide) a b
            omega
  | unfriendA x y =>
      simp only [stepA]
      cases hc : unfriend s x y with
      | error e => exact ⟨hPU, hNP⟩
      | ok s2 =>
          dsimp only
          obtain ⟨hreq, hfr⟩ := unfriend_ok_inv hc
          constructor
          · intro a b
            rw [pendingCount_requests_eq hreq]
            exact hPU a b
          · intro a b hab
            rw [pendingCount_requests_eq hreq]
            exact hNP a b (hfr a b hab)

theorem wf_empty : WfStore emptyStore := by
  constructor
  · intro a b
    simp [pendingCount, emptyStore]
  · intro a b hab
    simp [areFriends, emptyStore] at hab

theorem wf_runA (s : Store) (acts : List Action) (h : WfStore s) :
    WfStore (runA s acts) := by
  induction acts generalizing s with
  | nil => exact h
  | cons a rest ih => exact ih (stepA s a) (wf_step s a h)

/-- C2: in every store reachable by a serialized history of service calls
(the spec's atomic units serialize concurrent calls, including simultaneous
creation from both directions), every unordered pair of users has at most one
PENDING friend request between them, regardless of direction. -/
theorem at_most_one_pending_per_pair (acts : List Action) (a b : Nat) :
    pendingCount (runA emptyStore acts) a b ≤ 1 :=
  (wf_runA emptyStore acts wf_empty).1 a b

/-- C3: in any reachable store, if a PENDING request exists between distinct
`a` and `b` (either direction), `create(a, b)` fails with `DuplicateRequest`
carrying the existing request's id and leaves the store unchanged; and
`create(a, b)` immediately followed by `create(b, a)` leaves exactly one
PENDING request for the pair, the second call reporting the conflict with the
first request's id. -/
theorem duplicate_pending_conflict :
    (∀ (acts : List Action) (a b : Nat) (r : FriendRequest), a ≠ b →
        findPending (runA emptyStore acts) a b = some r →
        createReq (runA emptyStore acts) a b = .error (.DuplicateRequest r.id) ∧
        stepA (runA emptyStore acts) (Action.createA a b) = runA emptyStore acts) ∧
    (∀ (s s1 : Store) (a b : Nat) (r1 : FriendRequest),
        createReq s a b = .ok (s1, r1) →
        createReq s1 b a = .error (.DuplicateRequest r1.id) ∧
        pendingCount s1 a b = 1) := by
  constructor
  · intro acts a b r hab hfp
    have hwf := wf_runA emptyStore acts wf_empty
    have hfp2 : (runA emptyStore acts).requests.find? (pendingFor a b) = some r := hfp
    have hfr : areFriends (runA emptyStore acts) a b = false := by
      cases hcf : areFriends (runA emptyStore acts) a b with
      | false => rfl
      | true =>
          exfalso
          have hz := hwf.2 a b hcf
          have hpos : 0 < pendingCount (runA emptyStore acts) a b := by
            unfold pendingCount
            rw [List.countP_pos_iff]
            exact ⟨r, List.mem_of_find?_eq_some hfp2, List.find?_some hfp2⟩
          omega
    have hcr : createReq (runA emptyStore acts) a b = .error (.DuplicateRequest r.id) := by
      simp [createReq, hab, hfr, hfp]
    refine ⟨hcr, ?_⟩
    simp [stepA, hcr]
  · intro s s1 a b r1 hok
    obtain ⟨hab, hfr, hnone, hr1, hs1⟩ := createReq_ok_inv hok
    have hnone2 : s.requests.find? (pendingFor a b) = none := hnone
    constructor
    · have hba : b ≠ a := fun h => hab h.symm
      have hfr2 : areFriends s1 b a = false := by
        have h1 : areFriends s1 b a = areFriends s b a := by
          unfold areFriends; rw [hs1]
        rw [h1, areFriends_symm s b a]
        exact hfr
      have hp1 : pendingFor b a r1 = true := by
        rw [hr1]; unfold pendingFor pairMatches; simp
      have hfp3 : findPending s1 b a = some r1 := by
        unfold findPending
        rw [hs1]
        dsimp only
        rw [List.find?_cons, hp1]
      simp [createReq, hba, hfr2, hfp3]
    · unfold pendingCount
      rw [hs1]
      dsimp only
      rw [List.countP_cons]
      have hz : s.requests.countP (pendingFor a b) = 0 := by
        rw [List.countP_eq_zero]
        intro q hq hq2
        exact (List.find?_eq_none.mp hnone2 q hq) hq2
      have hp2 : pendingFor a b r1 = true := by
        rw [hr1]; unfold pendingFor pairMatches; simp
      rw [hz, hp2]
      simp

/-- Witness for C3: after user 1 sends a request to user 2, a repeat create
from either direction reports the conflict with request id 0, and exactly one
PENDING request exists. -/
theorem duplicate_pending_conflict_witness :
    (createReq (runA emptyStore [Action.createA 1 2]) 1 2 =
        .error (.DuplicateRequest 0) ∧
      stepA (runA emptyStore [Action.createA 1 2]) (Action.createA 1 2) =
        runA emptyStore [Action.createA 1 2]) ∧
    (createReq (⟨[⟨0, 1, 2, .PENDING, 0, none⟩], [], 1, 0⟩ : Store) 2 1 =
        .error (.DuplicateRequest 0) ∧
      pendingCount (⟨[⟨0, 1, 2, .PENDING, 0, none⟩], [], 1, 0⟩ : Store) 1 2 = 1) :=
  ⟨duplicate_pending_conflict.1 [Action.createA 1 2] 1 2
      ⟨0, 1, 2, .PENDING, 0, none⟩ (by decide) (by decide),
    duplicate_pending_conflict.2 emptyStore
      ⟨[⟨0, 1, 2, .PENDING, 0, none⟩], [], 1, 0⟩ 1 2
      ⟨0, 1, 2, .PENDING, 0, none⟩ (by rfl)⟩

/-- C4: the relationship status operation is a total pure function of the
store: for every (viewer, target) pair it returns exactly one of the five
values SELF, FRIENDS, OUTGOING, INCOMING, NONE together with an optional
request id, and `status(A, A)` is always SELF. -/
theorem relationship_status_total (s : Store) (v t : Nat) :
    statusOf s v v = (FriendStatus.SELF, none) ∧
    ((statusOf s v t).1 = FriendStatus.SELF ∨ (statusOf s v t).1 = FriendStatus.FRIENDS ∨
      (statusOf s v t).1 = FriendStatus.OUTGOING ∨ (statusOf s v t).1 = FriendStatus.INCOMING ∨
      (statusOf s v t).1 = FriendStatus.NONE) := by
  constructor
  · simp [statusOf]
  · cases h : (statusOf s v t).1 <;> simp

/-- C7 counterexample: the spec's verb vocabulary STATUS_CHANGE / RATED /
SESSION_LOGGED does not contain the verb value STATUS that the frontend's
closed Activity verb union delivers. -/
theorem verb_vocabulary_counterexample :
    verbName Verb.STATUS ∉ specVerbNames := by decide

/-- C7 (amended): every feed activity verb is drawn from the closed set
RATED, STATUS, SESSION declared by the Activity type of the frontend. -/
theorem verb_vocabulary_closed :
    ∀ v : Verb, verbName v ∈ ["RATED", "STATUS", "SESSION"] := by
  intro v
  cases v <;> simp [verbName]

/-- C8 counterexample: the element shape the frontend declares for
`GET /friends/` (the Friendship wrapper) does not decode as a MiniUser:
it has no top-level username field. -/
theorem my_friends_element_not_miniuser :
    decodeMiniUser (encodeFriendship demoFriendshipRow) = none := by rfl

/-- C8 (amended): `GET /friends/` returns `{results: [...]}` whose elements
are Friendship records `{id, friend: MiniUser, created_at}` — the MiniUser
nested under `friend` — while `GET /friends/:username/` returns
`{results: [MiniUser...]}`; both bodies are read through the `results` key,
and a Friendship element never parses as a bare MiniUser. -/
theorem friends_endpoint_shapes :
    (∀ f : Friendship, decodeFriendship (encodeFriendship f) = some f) ∧
    (∀ m : MiniUser, decodeMiniUser (encodeMiniUser m) = some m) ∧
    (∀ f : Friendship, decodeMiniUser (encodeFriendship f) = none) ∧
    (∀ xs : List Json, parseFriendsBody (Json.obj [("results", Json.arr xs)]) = xs) := by
  refine ⟨?_, ?_, ?_, ?_⟩
  · intro f
    obtain ⟨i, ⟨mi, mu, ma⟩, c⟩ := f
    cases ma <;> rfl
  · intro m
    obtain ⟨mi, mu, ma⟩ := m
    cases ma <;> rfl
  · intro f
    rfl
  · intro xs
    rfl

/-- C10: a people search whose trimmed query is shorter than 2 characters
clears the result list and issues no network request, in both the Friends
page handler and the Feed page handler; a request — always to /users/ —
is issued exactly when the trimmed query has at least two characters. -/
theorem short_search_no_request :
    (∀ q : List Char, (trimChars q).length < 2 →
        searchPeople q = .clearResults ∧ doSearch q = .clearResults) ∧
    (∀ q p s2, searchPeople q = .request p s2 →
        2 ≤ (trimChars q).length ∧ p = "/users/") ∧
    (∀ q p s2, doSearch q = .request p s2 →
        2 ≤ (trimChars q).length ∧ p = "/users/") := by
  refine ⟨?_, ?_, ?_⟩
  · intro q h
    constructor
    · unfold searchPeople; rw [if_pos h]
    · unfold doSearch; rw [if_pos h]
  · intro q p s2 h
    unfold searchPeople at h
    split at h
    · simp at h
    · rename_i hge
      simp only [SearchAction.request.injEq] at h
      exact ⟨by omega, h.1.symm⟩
  · intro q p s2 h
    unfold doSearch at h
    split at h
    · simp at h
    · rename_i hge
      simp only [SearchAction.request.injEq] at h
      exact ⟨by omega, h.1.symm⟩

/-- Witness for C10: the one-character query clears both result lists without
a request, and a two-character query issues the /users/ request. -/
theorem short_search_no_request_witness :
    (searchPeople [Char.ofNat 97] = .clearResults ∧
      doSearch [Char.ofNat 97] = .clearResults) ∧
    (2 ≤ (trimChars [Char.ofNat 97, Char.ofNat 98]).length ∧
      "/users/" = "/users/") :=
  ⟨short_search_no_request.1 [Char.ofNat 97] (by decide),
    short_search_no_request.2.1 [Char.ofNat 97, Char.ofNat 98] "/users/"
      [Char.ofNat 97, Char.ofNat 98] (by decide)⟩

/-! ## The 401 interceptor -/

theorem handle401_marked_reject (st : ClientState) (cfg : ReqConfig)
    (rr : Option String) (h : cfg._retry = true) :
    handleResponseError st (some 401) (some cfg) rr = (st, .reject) := by
  simp [handleResponseError, h]

theorem handle_retry_marked {st : ClientState} {status : Option Nat}
    {orig : Option ReqConfig} {rr : Option String} {cfg2 : ReqConfig}
    (h : (handleResponseError st status orig rr).2 = .retry cfg2) :
    cfg2._retry = true := by
  unfold handleResponseError at h
  repeat' split at h
  all_goals simp_all
  all_goals rw [← h]

/-- C9: the api client retries a 401-failed request at most once: a config
already marked `_retry` is rejected with no state change; every retry the
interceptor issues is marked `_retry = true`, so a second 401 on the retried
request always rejects; a missing stored refresh token clears the stored
credentials and rejects without retrying; and a failed refresh call clears
the credentials and rejects. -/
theorem refresh_retry_at_most_once :
    (∀ (st : ClientState) (cfg : ReqConfig) (rr : Option String),
        cfg._retry = true →
        handleResponseError st (some 401) (some cfg) rr = (st, .reject)) ∧
    (∀ (st : ClientState) (status : Option Nat) (orig : Option ReqConfig)
        (rr : Option String) (cfg2 : ReqConfig),
        (handleResponseError st status orig rr).2 = .retry cfg2 →
        cfg2._retry = true) ∧
    (∀ (st : ClientState) (status : Option Nat) (orig : Option ReqConfig)
        (rr : Option String) (cfg2 : ReqConfig) (st2 : ClientState)
        (rr2 : Option String),
        (handleResponseError st status orig rr).2 = .retry cfg2 →
        (handleResponseError st2 (some 401) (some cfg2) rr2).2 = .reject) ∧
    (∀ (st : ClientState) (cfg : ReqConfig) (rr : Option String),
        cfg._retry = false → st.refresh = none →
        handleResponseError st (some 401) (some cfg) rr =
          (clearStorage st, .reject)) ∧
    (∀ (st : ClientState) (cfg : ReqConfig),
        cfg._retry = false → st.refresh ≠ none → st.isRefreshing = false →
        handleResponseError st (some 401) (some cfg) none =
          ({ clearStorage st with isRefreshing := false }, .reject)) := by
  refine ⟨handle401_marked_reject, ?_, ?_, ?_, ?_⟩
  · intro st status orig rr cfg2 h
    exact handle_retry_marked h
  · intro st status orig rr cfg2 st2 rr2 h
    rw [handle401_marked_reject st2 cfg2 rr2 (handle_retry_marked h)]
  · intro st cfg rr h hr
    simp [handleResponseError, h, hr]
  · intro st cfg h hr hirf
    obtain ⟨tok, htok⟩ := Option.ne_none_iff_exists'.mp hr
    simp [handleResponseError, h, htok, hirf]

/-- Witness for C9 on concrete client states: a marked config rejects
unchanged, a retry-producing call marks its config so the follow-up 401
rejects, a missing refresh token clears credentials, and a failed refresh
clears credentials. -/
theorem refresh_retry_at_most_once_witness :
    handleResponseError demoWithRefresh (some 401) (some ⟨true⟩) none =
      (demoWithRefresh, .reject) ∧
    (handleResponseError demoWithRefresh (some 401) (some ⟨true⟩) (some "tok2")).2 =
      .reject ∧
    handleResponseError demoNoRefresh (some 401) (some ⟨false⟩) none =
      (clearStorage demoNoRefresh, .reject) ∧
    handleResponseError demoWithRefresh (some 401) (some ⟨false⟩) none =
      ({ clearStorage demoWithRefresh with isRefreshing := false }, .reject) :=
  ⟨refresh_retry_at_most_once.1 demoWithRefresh ⟨true⟩ none rfl,
    refresh_retry_at_most_once.2.2.1 demoWithRefresh (some 401) (some ⟨false⟩)
      (some "tok") ⟨true⟩ demoWithRefresh (some "tok2") (by decide),
    refresh_retry_at_most_once.2.2.2.1 demoNoRefresh ⟨false⟩ none rfl rfl,
    refresh_retry_at_most_once.2.2.2.2 demoWithRefresh ⟨false⟩ rfl (by decide) rfl⟩

/-! ## Feed pagination -/

theorem feed_length_le (s : Store) (events : List Activity) (v limit offset : Nat) :
    (feed s events v limit offset).length ≤ limit := by
  unfold feed
  rw [List.length_take]
  exact min_le_left _ _

theorem feed_eq_nil_of_short {s : Store} {events : List Activity}
    {v limit offset : Nat}
    (h : (feed s events v limit offset).length < limit) (k : Nat) :
    feed s events v limit (offset + limit + k) = [] := by
  unfold feed at h ⊢
  rw [List.length_take, List.length_drop] at h
  have hn : (feedSorted (events.filter (visibleTo s v))).length ≤ offset + limit + k := by
    omega
  rw [List.drop_eq_nil_iff.mpr hn, List.take_nil]

theorem hasMore_false_short {s : Store} {events : List Activity}
    {v limit offset : Nat}
    (h : hasMoreOf (feed s events v limit offset) limit = false) :
    (feed s events v limit offset).length < limit := by
  unfold hasMoreOf at h
  have hle := feed_length_le s events v limit offset
  simp at h
  omega

/-- C5: a feed page shorter than the requested limit signals that no further
pages exist (every later offset returns the empty page); a nonempty further
page can exist only when the returned page filled the limit; and the client's
has-more indication is `data.length === limit`, with the infinite-scroll
loader stopped as soon as it is false. -/
theorem page_boundary_rule :
    (∀ (s : Store) (events : List Activity) (v limit offset : Nat),
        hasMoreOf (feed s events v limit offset) limit = false →
        ∀ k, feed s events v limit (offset + limit + k) = []) ∧
    (∀ (s : Store) (events : List Activity) (v limit offset : Nat),
        feed s events v limit (offset + limit) ≠ [] →
        hasMoreOf (feed s events v limit offset) limit = true) ∧
    (∀ loading : Bool, willLoadMore false loading = false) := by
  refine ⟨?_, ?_, ?_⟩
  · intro s events v limit offset h k
    exact feed_eq_nil_of_short (hasMore_false_short h) k
  · intro s events v limit offset h
    cases hcm : hasMoreOf (feed s events v limit offset) limit with
    | true => rfl
    | false =>
        exfalso
        have h0 := feed_eq_nil_of_short (hasMore_false_short hcm) 0
        rw [Nat.add_zero] at h0
        exact h h0
  · intro loading
    rfl

/-- C5 counterexample: with exactly one visible event and limit 1 the page
fills the limit — the client's hasMore is true — yet there are no further
pages: the next page is already empty.  The claim's "if and only if" fails in
the limit-filled direction. -/
theorem page_boundary_rule_counterexample :
    hasMoreOf (feed demoFeedStore demoOneEvent 1 1 0) 1 = true ∧
    feed demoFeedStore demoOneEvent 1 1 1 = [] := by
  constructor <;> rfl

/-- Witness for C5: a short page at offset 1 forces the page after it to be
empty; a nonempty second page forces hasMore on the first; the stopped
loader issues no request. -/
theorem page_boundary_rule_witness :
    feed demoFeedStore demoOneEvent 1 1 (1 + 1 + 0) = [] ∧
    hasMoreOf (feed demoFeedStore demoThreeEvents 1 1 0) 1 = true ∧
    willLoadMore false true = false :=
  ⟨page_boundary_rule.1 demoFeedStore demoOneEvent 1 1 1 (by decide) 0,
    page_boundary_rule.2.1 demoFeedStore demoThreeEvents 1 1 0 (by decide),
    page_boundary_rule.2.2 true⟩

theorem feedSorted_sorted (events : List Activity) :
    List.Sorted feedLE (feedSorted events) :=
  List.sorted_insertionSort feedLE events

theorem feedSorted_perm (events : List Activity) :
    (feedSorted events).Perm events :=
  List.perm_insertionSort feedLE events

/-- C6: with distinct event ids and no activity inserted between the calls,
the pages at offset 0 and offset N (limit N) are contiguous — together they
are exactly the first 2N entries of the sorted visible stream, with no gap —
disjoint (no duplicates), and their concatenation is strictly ordered by
created_at descending with ties broken by id descending (a stable total
order). -/
theorem feed_two_pages (s : Store) (events : List Activity) (v n : Nat)
    (hids : (events.map (fun e => e.id)).Nodup) :
    feed s events v n 0 ++ feed s events v n n =
      (feedSorted (events.filter (visibleTo s v))).take (n + n) ∧
    (∀ x ∈ feed s events v n 0, x ∉ feed s events v n n) ∧
    List.Pairwise feedLT (feed s events v n 0 ++ feed s events v n n) := by
  have hfsub : (events.filter (visibleTo s v)).Sublist events :=
    List.filter_sublist events
  have hfids : ((events.filter (visibleTo s v)).map (fun e => e.id)).Nodup :=
    List.Nodup.sublist (List.Sublist.map _ hfsub) hids
  have hperm : (feedSorted (events.filter (visibleTo s v))).Perm
      (events.filter (visibleTo s v)) := feedSorted_perm _
  have hlids : ((feedSorted (events.filter (visibleTo s v))).map (fun e => e.id)).Nodup :=
    List.Perm.nodup (List.Perm.map _ hperm).symm hfids
  have hlnd : (feedSorted (events.filter (visibleTo s v))).Nodup :=
    List.Nodup.of_map _ hlids
  have hsorted : List.Sorted feedLE (feedSorted (events.filter (visibleTo s v))) :=
    feedSorted_sorted _
  have hpairne : (feedSorted (events.filter (visibleTo s v))).Pairwise
      (fun x y => x.id ≠ y.id) := List.pairwise_map.mp hlids
  have hstrict : (feedSorted (events.filter (visibleTo s v))).Pairwise feedLT := by
    have hcomb := List.Pairwise.and hsorted hpairne
    refine hcomb.imp ?_
    intro x y hxy
    obtain ⟨hle2, hne⟩ := hxy
    unfold feedLE at hle2
    unfold feedLT
    rcases hle2 with h1 | ⟨h2, h3⟩
    · exact Or.inl h1
    · exact Or.inr ⟨h2, by omega⟩
  have hp0 : feed s events v n 0 = (feedSorted (events.filter (visibleTo s v))).take n := by
    unfold feed
    rw [List.drop_zero]
  have hp1 : feed s events v n n =
      ((feedSorted (events.filter (visibleTo s v))).drop n).take n := rfl
  refine ⟨?_, ?_, ?_⟩
  · rw [hp0, hp1]
    exact (List.take_add _ n n).symm
  · intro x hx0 hx1
    rw [hp0] at hx0
    rw [hp1] at hx1
    exact List.disjoint_take_drop hlnd (le_refl n) hx0 (List.take_subset _ _ hx1)
  · rw [hp0, hp1, ← List.take_add]
    exact List.Pairwise.sublist (List.take_sublist _ _) hstrict

/-- Witness for C6 on three concrete events (two sharing a timestamp) with
page size 1. -/
theorem feed_two_pages_witness :
    (demoThreeEvents.map (fun e => e.id)).Nodup ∧
    (feed demoFeedStore demoThreeEvents 1 1 0 ++ feed demoFeedStore demoThreeEvents 1 1 1 =
        (feedSorted (demoThreeEvents.filter (visibleTo demoFeedStore 1))).take (1 + 1) ∧
      (∀ x ∈ feed demoFeedStore demoThreeEvents 1 1 0,
        x ∉ feed demoFeedStore demoThreeEvents 1 1 1) ∧
      List.Pairwise feedLT
        (feed demoFeedStore demoThreeEvents 1 1 0 ++ feed demoFeedStore demoThreeEvents 1 1 1)) :=
  ⟨by decide, feed_two_pages demoFeedStore demoThreeEvents 1 1 (by decide)⟩

end GameJournal
